import Mathlib

/-!
Shallow embedding of the pyext2 repository (an ext2 image reader) and
verification of a list of claims about it.

The model follows `src/pyext2/ext2reader.py` (the reader actually wired to the
CLI) for the volume/parse/path/data operations, and `src/pyext2/inode.py` +
`src/pyext2/parser.py` for the newer inode-record predicates and the inline
symlink decoding, which only exist there.

Conventions of the embedding:
- a byte image is a `List Nat` of byte values; `readBytes` models
  `file.seek(offset); file.read(n)` (a read past the end returns the bytes
  that remain, possibly none, exactly like a Python file object);
- Python exceptions become the `PyErr` error type of `Except`; each
  constructor is commented with the concrete Python exception it stands for
  and, where the spec names the failure, with the spec's error kind;
- Python dicts keyed by names become association lists in insertion order
  (`Files`, `Table`); this preserves both dict iteration order and the
  first-occurrence-wins behaviour of `if name not in d: d[name] = v`;
- the directory-entry loop (`while True:` in `Ext2Reader.parse`) is modelled
  with explicit fuel, fixed at `walkFuel = 2^64`.  With every declared
  record length >= 1 the loop's offset strictly increases and the loop
  stops (entry with inode 0, or a short read makes `struct.unpack` raise)
  after at most `img.length + 1` steps, so for any image of fewer than
  `2^64 - 1` bytes (every image a real machine can hold) the fuel can only
  run out when a record length of 0 is met, which makes the Python loop
  spin at one offset forever; fuel exhaustion is reported as the dedicated
  error `PyErr.divergence`;
- a Python `str` value is modelled by its UTF-8 bytes (a lossless
  representation), so `bytes.decode()` — CPython's strict UTF-8 decoder —
  becomes: validate the bytes with `utf8Valid` and return them unchanged,
  raising `UnicodeDecodeError` on invalid input.  This keeps the partiality
  of the `.decode()` calls at `ext2reader.py:426` and `inode.py:118`;
- `int(a / b)` and `int(math.ceil(a / b))` in the source go through Python
  float true division, which CPython computes as the correctly rounded
  53-bit quotient (`long_true_divide`), raising `OverflowError` when the
  rounded quotient reaches 2^1024.  The one site where this can diverge
  from exact integer division is `int(block_size / inode_size)`
  (`ext2reader.py:142`), whose numerator is always the power of two
  `1024 << log_block_size`; it is modelled bit-exactly by `pyIntDivPow2`.
  The other two sites are exact for every value that can reach them and are
  modelled by exact `Nat` division with the argument recorded at each site:
  `int(a / b)` equals `a // b` whenever the numerator `a` satisfies
  `a + b < 2^53` or `a < b / 2`-style smallness — concretely, truncation
  can only differ from flooring when the real quotient lies within half an
  ulp below the next integer `f + 1`, which forces `(f + 1) * b >= 2^53`
  and hence `a + b >= 2^53`; both remaining sites have a u32 numerator, so
  `a < 2^32`, and a quotient crossing is impossible for any denominator.
-/

deriving instance DecidableEq for Except

namespace Pyext2

/-- A byte image / byte string: a list of byte values. -/
abbrev Bytes := List Nat

/-- `data[off]` with the value 0 past the end; every use below is guarded by a
length check mirroring the exact-size check of `struct.unpack`. -/
def byteAt (l : Bytes) (i : Nat) : Nat := l.getD i 0

/-- Little-endian unsigned 16-bit field, `struct` format `H` (native order,
little-endian on the platforms the source targets). -/
def u16le (l : Bytes) (off : Nat) : Nat :=
  byteAt l off + 256 * byteAt l (off + 1)

/-- Little-endian unsigned 32-bit field, `struct` format `I`. -/
def u32le (l : Bytes) (off : Nat) : Nat :=
  byteAt l off + 256 * byteAt l (off + 1) + 65536 * byteAt l (off + 2) +
    16777216 * byteAt l (off + 3)

/-- `Ext2Reader._read(n, offset=off)`: seek then read.  Python's `read`
returns the bytes that remain when fewer than `n` are available. -/
def readBytes (img : Bytes) (off n : Nat) : Bytes := (img.drop off).take n

/-- The signed reinterpretation of one byte, `struct` format `b`. -/
def toSigned8 (b : Nat) : Int := if b < 128 then (b : Int) else (b : Int) - 256

/-- A UTF-8 continuation byte, 0x80-0xBF. -/
def isCont (c : Nat) : Bool := decide (128 ≤ c ∧ c < 192)

/-- CPython's strict UTF-8 validity check (RFC 3629), the success condition
of `bytes.decode()`: one-byte sequences 0x00-0x7F; two-byte lead bytes
0xC2-0xDF (0xC0/0xC1 would be overlong); three-byte lead bytes 0xE0-0xEF
with the first continuation restricted to 0xA0-0xBF after 0xE0 (overlong)
and to 0x80-0x9F after 0xED (surrogates); four-byte lead bytes 0xF0-0xF4
with the first continuation restricted to 0x90-0xBF after 0xF0 (overlong)
and to 0x80-0x8F after 0xF4 (above U+10FFFF); 0xF5-0xFF invalid. -/
def utf8Valid : Bytes → Bool
  | [] => true
  | b :: rest =>
    if b < 128 then utf8Valid rest
    else if b < 194 then false
    else if b < 224 then
      match rest with
      | c1 :: rest2 => isCont c1 && utf8Valid rest2
      | [] => false
    else if b < 240 then
      match rest with
      | c1 :: c2 :: rest2 =>
        (if b = 224 then decide (160 ≤ c1 ∧ c1 < 192)
         else if b = 237 then decide (128 ≤ c1 ∧ c1 < 160)
         else isCont c1) && isCont c2 && utf8Valid rest2
      | _ => false
    else if b < 245 then
      match rest with
      | c1 :: c2 :: c3 :: rest2 =>
        (if b = 240 then decide (144 ≤ c1 ∧ c1 < 192)
         else if b = 244 then decide (128 ≤ c1 ∧ c1 < 144)
         else isCont c1) && isCont c2 && isCont c3 && utf8Valid rest2
      | _ => false
    else false

/-- Python exceptions raised by the source, named after the spec's error kinds
where the spec names them. -/
inductive PyErr where
  /-- `struct.error`: `unpack` given a buffer of the wrong size, or a negative
  repeat count in the format string (spec: `MalformedRecord`). -/
  | structError : PyErr
  /-- `assert self.superblock.nb_block_groups == 1` in `Ext2Reader.parse`
  (spec: `UnsupportedVolume`). -/
  | unsupportedVolume : PyErr
  /-- `assert inode_table_size * inodes_per_block == inodes_per_group`
  (spec: `InconsistentGeometry`). -/
  | inconsistentGeometry : PyErr
  /-- `IndexError` from indexing a `BitArray` out of range. -/
  | indexError : PyErr
  /-- The `while True:` directory-entry loop never terminates (declared
  record length 0); modelled as an error when the fuel runs out. -/
  | divergence : PyErr
  /-- `RuntimeError(f"no {p} in ...")` from `find_inode_for_path`, carrying
  the missing component (spec: `NotFound`). -/
  | notFound : Bytes → PyErr
  /-- `KeyError` from `self.inode_table[current_inode_idx]`. -/
  | keyError : PyErr
  /-- A failed `assert` (`path must be absolute`, `assert inode.is_file`,
  `assert self.is_link`); the spec calls the data-read one `NotAFile`. -/
  | assertionError : PyErr
  /-- `ValueError` from `bytes.index(0)` when no zero byte exists
  (spec: `BrokenSymlink`). -/
  | brokenSymlink : PyErr
  /-- `ZeroDivisionError` from the superblock's derived divisions. -/
  | zeroDivision : PyErr
  /-- `OverflowError` from int true division whose correctly rounded
  quotient reaches 2^1024 (`ext2reader.py:142` for huge block sizes). -/
  | overflowError : PyErr
  /-- `UnicodeDecodeError` from `bytes.decode()` on bytes that are not
  valid UTF-8 (`ext2reader.py:426`, `inode.py:118`). -/
  | unicodeDecodeError : PyErr
deriving DecidableEq

/-- `DirEntry` of `ext2reader.py`: `index` (inode number), `inode_type`
(signed type tag byte) and the raw `name` bytes. -/
structure DirEntry where
  index : Nat
  inode_type : Int
  name : Bytes
deriving DecidableEq

/-- `inode.files`: a Python dict from name bytes to `DirEntry`, kept in
insertion order. -/
abbrev Files := List (Bytes × DirEntry)

/-- The attributes of `ext2reader.py`'s `Inode` that the reader's logic
consults: `mode` (u16), `size` (u32), the 15 raw block pointers (u32 each),
the directory name map and the eagerly read file bytes.  The remaining
decoded attributes (uid, gid, timestamps, links_count, blocks, flags,
block_index) are stored by the source but never read by any operation a
claim is about, so they are not carried. -/
structure Inode where
  mode : Nat
  size : Nat
  block : List Nat
  files : Files
  raw_data : Bytes
deriving DecidableEq

/-- `Inode.is_file` of `ext2reader.py` (line 303): an any-bit test
`self.mode & InodeMode.EXT2_S_IFREG != 0` with `EXT2_S_IFREG = 0x8000`. -/
def Inode.is_file (i : Inode) : Bool := i.mode &&& 0x8000 != 0

/-- `Inode.is_dir` of `ext2reader.py` (line 307):
`self.mode & InodeMode.EXT2_S_IFDIR != 0` with `EXT2_S_IFDIR = 0x4000`. -/
def Inode.is_dir (i : Inode) : Bool := i.mode &&& 0x4000 != 0

/-- `Inode.is_link` of `ext2reader.py` (line 311):
`self.mode & InodeMode.EXT2_S_IFLNK != 0` with `EXT2_S_IFLNK = 0xA000`. -/
def Inode.is_link (i : Inode) : Bool := i.mode &&& 0xA000 != 0

/-- `Inode.__init__` of `ext2reader.py`: `_parse` unpacks every field of the
128-byte record (`i_osd2`, the farthest, needs bytes 116..128), so a buffer
shorter than 128 bytes makes `struct.unpack` raise; `i_mode` is format `H`
at offset 0, `i_size` format `I` at offset 4, `i_block` format `15I` at
offset 40. -/
def decodeInode (data : Bytes) : Except PyErr Inode :=
  if 128 ≤ data.length then
    .ok { mode := u16le data 0
          size := u32le data 4
          block := (List.range 15).map (fun k => u32le data (40 + 4 * k))
          files := []
          raw_data := [] }
  else .error .structError

/-- The materialized `inode_table` dict: 1-based inode number to record, in
insertion (= ascending slot) order. -/
abbrev Table := List (Nat × Inode)

/-- `name in inode.files` (Python dict key membership). -/
def hasKey (fs : Files) (name : Bytes) : Bool := fs.any (fun kv => kv.1 == name)

/-- `if name not in inode.files: inode.files[name] = entry` (lines 506-507):
the first occurrence of a name is kept, later ones are dropped. -/
def insertIfAbsent (fs : Files) (name : Bytes) (e : DirEntry) : Files :=
  if hasKey fs name then fs else fs ++ [(name, e)]

/-- The `while True:` directory-entry loop of `Ext2Reader.parse`
(lines 493-507): read an 8-byte header (`struct` format `IHbb`: u32 inode
number, u16 record length, signed byte name length, signed byte type tag);
an inode number of 0 breaks the loop; otherwise read `name_len` name bytes
(a name length with the sign bit set produces a negative repeat count and
`struct.error`), advance the cursor by the declared record length, and
insert the entry under its name unless the name is already present.
Fuel replaces the unbounded `while`; see the header comment.  The recursion
is written with `Nat.rec` directly (rather than the equation compiler) so
that evaluation inside the kernel descends one level per executed
iteration instead of materializing a tower for the whole fuel value; the
equations `walkEntries_zero` and `walkEntries_succ` below hold by `rfl`. -/
def walkEntries (img : Bytes) (fuel : Nat) : Nat → Files → Except PyErr Files :=
  Nat.rec (motive := fun _ => Nat → Files → Except PyErr Files)
    (fun _ _ => .error .divergence)
    (fun _ ih off fs =>
      if (readBytes img off 8).length = 8 then
        if u32le (readBytes img off 8) 0 = 0 then .ok fs
        else if 128 ≤ byteAt (readBytes img off 8) 6 then .error .structError
        else if (readBytes img (off + 8) (byteAt (readBytes img off 8) 6)).length =
            byteAt (readBytes img off 8) 6 then
          ih (off + u16le (readBytes img off 8) 4)
            (insertIfAbsent fs (readBytes img (off + 8) (byteAt (readBytes img off 8) 6))
              { index := u32le (readBytes img off 8) 0
                inode_type := toSigned8 (byteAt (readBytes img off 8) 7)
                name := readBytes img (off + 8) (byteAt (readBytes img off 8) 6) })
        else .error .structError
      else .error .structError)
    fuel

/-- The walk fuel: 2^64, larger than any iteration count a finite image can
drive (see the header comment). -/
def walkFuel : Nat := 18446744073709551616

/-- `for b in inode.block: if b == 0: continue; ...` (lines 488-507): every
non-zero block-pointer slot is walked, accumulating into the same name map. -/
def dirBlocksLoop (img : Bytes) (bs : Nat) : List Nat → Files → Except PyErr Files
  | [], fs => .ok fs
  | b :: rest, fs =>
    if b = 0 then dirBlocksLoop img bs rest fs
    else
      match walkEntries img walkFuel (b * bs) fs with
      | .error e => .error e
      | .ok fs2 => dirBlocksLoop img bs rest fs2

/-- Directory-content parsing of one directory inode (lines 487-507). -/
def parseDirs (img : Bytes) (bs : Nat) (ino : Inode) : Except PyErr Inode :=
  match dirBlocksLoop img bs ino.block ino.files with
  | .error e => .error e
  | .ok fs => .ok { ino with files := fs }

/-- Lines 509-517 of `Ext2Reader.parse`: for a record whose `is_file` bit
test holds, a size of `block_size` or more only logs a warning, a size above
64 is overwritten with 64, and `inode.size` bytes are read eagerly from
byte offset `inode.block[0] * block_size` into `raw_data`. -/
def fileDataOf (img : Bytes) (bs : Nat) (ino : Inode) : Inode :=
  if ino.is_file then
    let size := if 64 < ino.size then 64 else ino.size
    { ino with size := size, raw_data := readBytes img (ino.block.getD 0 0 * bs) size }
  else ino

/-- The `SuperBlock` attributes of `ext2reader.py` the reader consults: the
raw fields feeding the derivations (lines 136-144) plus `s_first_ino`
(decoded by `_parse` but never used by the reader's logic), and the derived
quantities of lines 141-146. -/
structure SuperBlock where
  blocks_count : Nat
  blocks_per_group : Nat
  log_block_size : Nat
  inode_size : Nat
  inodes_per_group : Nat
  first_ino : Nat
  block_size : Nat
  inodes_per_block : Nat
  inode_table_size : Nat
  nb_block_groups : Nat
deriving DecidableEq

/-- Floor of log2 computed with explicit fuel (any fuel at least the bit
count works; callers pass the number itself, which always suffices since
`log2 m < m` for `m >= 1`).  Written with `Nat.rec` directly so the kernel
evaluates it in depth proportional to the executed iterations. -/
def log2fuel (fuel : Nat) : Nat → Nat :=
  Nat.rec (motive := fun _ => Nat → Nat)
    (fun _ => 0)
    (fun _ ih m => if 2 ≤ m then ih (m / 2) + 1 else 0)
    fuel

/-- Bit length: the least L with `m < 2^L` (0 for 0). -/
def bitLen (m : Nat) : Nat := if m = 0 then 0 else log2fuel m m + 1

/-- Round-to-nearest, ties-to-even, of the real number `n / m` (`m > 0`) to
an integer — the rounding IEEE binary64 arithmetic uses. -/
def rneDiv (n m : Nat) : Nat :=
  if 2 * (n % m) < m then n / m
  else if m < 2 * (n % m) then n / m + 1
  else if n / m % 2 = 0 then n / m else n / m + 1

/-- `int(2^k / m)` in CPython, i.e. `int(self.block_size / self.inode_size)`
at `ext2reader.py:142`, whose numerator is always the power of two
`1024 << log_block_size`.  CPython's int true division
(`long_true_divide`) produces the correctly rounded binary64 of the exact
quotient `q = 2^k / m` and raises `ZeroDivisionError` for `m = 0` and
`OverflowError` when the rounded quotient reaches `2^1024`; `int(...)`
then truncates toward zero.  With `L = bitLen m` we have
`q ∈ (2^(e0-1), 2^e0]` for `e0 = k - L + 1`, so the binary64 grid around
`q` has spacing `2^(e0-53)` and the rounded value is
`v = rne(q * 2^(53-e0)) * 2^(e0-53) = rneDiv (2^(L+52)) m * 2^(k+1) / 2^(L+53)`
as an exact rational; overflow is `v >= 2^1024` and the truncation of the
positive `v` is the floor below. -/
def pyIntDivPow2 (k m : Nat) : Except PyErr Nat :=
  if m = 0 then .error .zeroDivision
  else
    if 2 ^ 1024 * 2 ^ (bitLen m + 53) ≤ rneDiv (2 ^ (bitLen m + 52)) m * 2 ^ (k + 1) then
      .error .overflowError
    else
      .ok (rneDiv (2 ^ (bitLen m + 52)) m * 2 ^ (k + 1) / 2 ^ (bitLen m + 53))

/-- `SuperBlock.__init__` on `self._read(1024, offset=1024)` (line 429).
`_parse` unpacks every field of the spec string; the farthest is
`s_first_meta_bg` at offsets 260..264, so the decode succeeds exactly when
the read yields at least 264 bytes.  Field offsets used: `s_blocks_count` 4,
`s_log_block_size` 24, `s_blocks_per_group` 32, `s_inodes_per_group` 40,
`s_first_ino` 84 (format `I`), `s_inode_size` 88 (format `H`).
Line 142's `int(block_size / inode_size)` is the bit-exact float model
`pyIntDivPow2` (see its doc comment).  The two remaining float detours are
exact for every reachable operand and are modelled by exact `Nat`
division: `int(a / b)` can differ from `a // b` only when the real
quotient lies within half an ulp below the next integer `f + 1`, which
needs `(b - a % b) / b <= (f + 1) * 2^-53`, hence `a + b >= 2^53`; at
line 144 the numerator `s_inodes_per_group` is a u32 (`a < 2^32`, and for
huge denominators the quotient is far below 1), and at line 146 both
operands of `math.ceil(blocks_count / blocks_per_group)` are u32s, where
the same bound shows the rounded quotient never crosses an integer, so the
float ceil equals the exact ceiling `(a + b - 1) / b`.  Each division
raises `ZeroDivisionError` on a zero divisor, in source order. -/
def mkSuperBlock (img : Bytes) : Except PyErr SuperBlock :=
  let data := readBytes img 1024 1024
  if data.length < 264 then .error .structError
  else
    let blocks_count := u32le data 4
    let log_bs := u32le data 24
    let bpg := u32le data 32
    let ipg := u32le data 40
    let firstIno := u32le data 84
    let inodeSize := u16le data 88
    match pyIntDivPow2 (10 + log_bs) inodeSize with
    | .error e => .error e
    | .ok ipb =>
      if ipb = 0 then .error .zeroDivision
      else if bpg = 0 then .error .zeroDivision
      else
        .ok { blocks_count := blocks_count
              blocks_per_group := bpg
              log_block_size := log_bs
              inode_size := inodeSize
              inodes_per_group := ipg
              first_ino := firstIno
              block_size := 1024 <<< log_bs
              inodes_per_block := ipb
              inode_table_size := ipg / ipb
              nb_block_groups := (blocks_count + bpg - 1) / bpg }

/-- `BlockGroupDescription` ids (lines 176-180). -/
structure BlockGroupDescription where
  block_bitmap_id : Nat
  inode_bitmap_id : Nat
  inode_table_id : Nat
deriving DecidableEq

/-- `BlockGroupDescription.__init__` on `self._read(32, offset=block_size)`
(line 436).  `_parse` unpacks up to `bg_reserved` at offsets 20..32, so the
decode needs all 32 bytes. -/
def mkBGD (img : Bytes) (bs : Nat) : Except PyErr BlockGroupDescription :=
  let data := readBytes img bs 32
  if data.length < 32 then .error .structError
  else
    .ok { block_bitmap_id := u32le data 0
          inode_bitmap_id := u32le data 4
          inode_table_id := u32le data 8 }

/-- `InodeBitmap.__getitem__`: indexing a `bitstring.BitArray` built from the
bitmap bytes.  `BitArray` numbers bits from the most significant bit of each
byte (index 0 is the MSB of byte 0), and an index at or past `8 * len`
raises `IndexError` (`none` here). -/
def bitArrayGet (data : Bytes) (idx : Nat) : Option Bool :=
  match data.get? (idx / 8) with
  | none => none
  | some b => some (b.testBit (7 - idx % 8))

/-- The body of the slot loop of `Ext2Reader.parse` (lines 471-517) for table
block `i`, slot `j`: the 1-based inode number is `i * inodes_per_block + j + 1`
(line 473); the slot is skipped when `inode_bitmap[inode_index]` is unset
(line 475); otherwise the 128-byte record at
`inode_table_offset + block_size * i + inode_size * j` is decoded, directory
contents are parsed when `is_dir`, the file clamp-and-read runs when
`is_file`, and the record is stored under its inode number.  (The source
stores the record object first and mutates it in place; since an error
aborts the whole `parse`, storing the fully processed record is
equivalent.) -/
def processSlot (img : Bytes) (sb : SuperBlock) (bitmap : Bytes) (tblOff : Nat)
    (t : Table) (i j : Nat) : Except PyErr Table :=
  let idx := i * sb.inodes_per_block + j + 1
  match bitArrayGet bitmap idx with
  | none => .error .indexError
  | some false => .ok t
  | some true =>
    match decodeInode (readBytes img (tblOff + sb.block_size * i + sb.inode_size * j) sb.inode_size) with
    | .error e => .error e
    | .ok ino =>
      match (if ino.is_dir then parseDirs img sb.block_size ino else .ok ino) with
      | .error e => .error e
      | .ok ino2 => .ok (t ++ [(idx, fileDataOf img sb.block_size ino2)])

/-- `for j in range(inodes_per_block):` (line 471). -/
def innerLoop (img : Bytes) (sb : SuperBlock) (bitmap : Bytes) (tblOff : Nat)
    (i : Nat) : List Nat → Table → Except PyErr Table
  | [], t => .ok t
  | j :: js, t =>
    match processSlot img sb bitmap tblOff t i j with
    | .error e => .error e
    | .ok t2 => innerLoop img sb bitmap tblOff i js t2

/-- `for i in range(inode_blocks_per_group):` (line 468); the source's
`inode_blocks_per_group` (line 450) equals the superblock's
`inode_table_size`. -/
def outerLoop (img : Bytes) (sb : SuperBlock) (bitmap : Bytes) (tblOff : Nat) :
    List Nat → Table → Except PyErr Table
  | [], t => .ok t
  | i :: is, t =>
    match innerLoop img sb bitmap tblOff i (List.range sb.inodes_per_block) t with
    | .error e => .error e
    | .ok t2 => outerLoop img sb bitmap tblOff is t2

/-- The state `Ext2Reader.parse` leaves behind. -/
structure Volume where
  superblock : SuperBlock
  table : Table
deriving DecidableEq

/-- `Ext2Reader.parse` (lines 428-521): decode the superblock from offset
1024; `assert nb_block_groups == 1` (line 431); decode the group descriptor
at offset `block_size`; `assert inode_table_size * inodes_per_block ==
inodes_per_group` (line 460); read the inode bitmap (`block_size` bytes at
`block_size * inode_bitmap_id`); run the slot loops over the inode table at
`block_size * inode_table_id`.  (The `BlockBitmap` read of line 462 is
constructed and immediately discarded by the source, and a file read cannot
fail, so it is not modelled.) -/
def parse (img : Bytes) : Except PyErr Volume :=
  match mkSuperBlock img with
  | .error e => .error e
  | .ok sb =>
    if sb.nb_block_groups ≠ 1 then .error .unsupportedVolume
    else
      match mkBGD img sb.block_size with
      | .error e => .error e
      | .ok bgd =>
        if sb.inode_table_size * sb.inodes_per_block ≠ sb.inodes_per_group then
          .error .inconsistentGeometry
        else
          match outerLoop img sb (readBytes img (sb.block_size * bgd.inode_bitmap_id) sb.block_size)
              (sb.block_size * bgd.inode_table_id) (List.range sb.inode_table_size) [] with
          | .error e => .error e
          | .ok t => .ok { superblock := sb, table := t }

/-- `self.inode_table[idx]` as a non-raising lookup; the raising access sites
below turn `none` into `KeyError`. -/
def pyDictGet (t : Table) (k : Nat) : Option Inode :=
  (t.find? (fun kv => kv.1 == k)).map (fun kv => kv.2)

/-- The component loop of `Ext2Reader.find_inode_for_path` (lines 408-417):
for each part, scan the current inode's `files.items()` for an entry whose
`name` equals the encoded part and advance to its `index`; the `for`/`else`
raises (spec: `NotFound`) naming the part when no entry matches. -/
def resolveLoop (t : Table) : List Bytes → Nat → Except PyErr Nat
  | [], idx => .ok idx
  | p :: rest, idx =>
    match pyDictGet t idx with
    | none => .error .keyError
    | some ino =>
      match ino.files.find? (fun kv => kv.2.name == p) with
      | some kv => resolveLoop t rest kv.2.index
      | none => .error (.notFound p)

/-- `Ext2Reader.find_inode_for_path` (lines 403-419): assert the path is
absolute, take `path.split("/")[1:]` and walk the parts starting from inode
number 2.  The path is modelled as its byte string; splitting on the byte 47
(`/`) agrees with Python's character-level `str.split("/")` followed by
`.encode()` of each part, because 47 never occurs inside a multi-byte UTF-8
sequence.  `List.splitOn` keeps empty parts exactly like `str.split` with an
explicit separator. -/
def find_inode_for_path (t : Table) (path : Bytes) : Except PyErr Nat :=
  if path.head? = some 47 then resolveLoop t ((path.splitOn 47).drop 1) 2
  else .error .assertionError

/-- `Ext2Reader.read_data_from_inode` (lines 421-426): look the inode up
(`KeyError` when absent), `assert inode.is_file` (spec: `NotAFile`), and
return `inode.raw_data.decode()`.  The decoded text is modelled by its
UTF-8 bytes, so success returns the stored bytes themselves and bytes that
are not valid UTF-8 raise `UnicodeDecodeError`. -/
def read_data_from_inode (t : Table) (idx : Nat) : Except PyErr Bytes :=
  match pyDictGet t idx with
  | none => .error .keyError
  | some ino =>
    if ino.is_file then
      if utf8Valid ino.raw_data then .ok ino.raw_data else .error .unicodeDecodeError
    else .error .assertionError

/-- `Ext2Reader.read_file` (lines 385-390). -/
def read_file (t : Table) (path : Bytes) : Except PyErr Bytes :=
  match find_inode_for_path t path with
  | .error e => .error e
  | .ok idx => read_data_from_inode t idx

/-!
The newer inode module `src/pyext2/inode.py` (backed by `src/pyext2/parser.py`).
Its `InodeInfo` reads `i_mode` with `struct` format `h`, i.e. signed.
-/

/-- `parser.read_s` applied to the raw u16 `i_mode`: the signed 16-bit
reinterpretation. -/
def i_mode_signed (m : Nat) : Int := if m < 32768 then (m : Int) else (m : Int) - 65536

/-- Python's `s & mask` for a possibly negative `s` and a mask below 2^16:
only the low 16 bits of `s` matter, and `s % 65536` (Python-style
non-negative modulo, which Lean's `Int.emod` matches for a positive
modulus) is exactly those 16 bits of the infinite two's complement of `s`. -/
def pyAnd16 (s : Int) (mask : Nat) : Nat := (s % 65536).toNat &&& mask

namespace MInode

/-- `Inode.is_file` of `inode.py` (line 122):
`self.mode & EXT2_S_IFMT == EXT2_S_IFREG`, with `EXT2_S_IFMT = 0xF000` and
`EXT2_S_IFREG = 0x8000`, on the signed `i_mode`. -/
def is_file (m : Nat) : Bool := pyAnd16 (i_mode_signed m) 0xF000 == 0x8000

/-- `Inode.is_dir` of `inode.py` (line 126). -/
def is_dir (m : Nat) : Bool := pyAnd16 (i_mode_signed m) 0xF000 == 0x4000

/-- `Inode.is_link` of `inode.py` (line 130). -/
def is_link (m : Nat) : Bool := pyAnd16 (i_mode_signed m) 0xF000 == 0xA000

end MInode

/-- The 4 little-endian bytes of one block-pointer slot as `struct.pack`
writes them (native order; the source targets little-endian platforms, and
the same native order was used to unpack `i_block`, so the pack/unpack pair
reproduces the on-disk bytes). -/
def u32ToLEBytes (v : Nat) : List Nat :=
  [v % 256, v / 256 % 256, v / 65536 % 256, v / 16777216 % 256]

/-- `struct.pack("15i", *self.block)` (line 117 of `inode.py`): format `i` is
signed 32-bit, so it raises `struct.error` ("argument out of range") for any
slot value at or above 2^31 — and the slots come from `read_us`, unsigned
32-bit decoding, so such values do occur on disk.  It also requires exactly
15 values. -/
def pack15i (blk : List Nat) : Except PyErr Bytes :=
  if blk.length == 15 && blk.all (fun v => decide (v < 2147483648)) then
    .ok (blk.flatMap u32ToLEBytes)
  else .error .structError

/-- `Inode.get_link_path` of `inode.py` (lines 114-118):
`assert self.is_link`, repack the 15 block-pointer slots into a byte
string, slice off the bytes before the first zero byte — `bytes.index(0)`
raises `ValueError` (spec: `BrokenSymlink`) when no zero byte exists — and
`.decode()` that prefix: the decoded text is modelled by its UTF-8 bytes,
so an invalid-UTF-8 prefix raises `UnicodeDecodeError`. -/
def get_link_path (mode : Nat) (blk : List Nat) : Except PyErr Bytes :=
  if MInode.is_link mode then
    match pack15i blk with
    | .error e => .error e
    | .ok bs =>
      match bs.findIdx? (fun b => b == 0) with
      | some i =>
        if utf8Valid (bs.take i) then .ok (bs.take i) else .error .unicodeDecodeError
      | none => .error .brokenSymlink
  else .error .assertionError

/-- Modelled from the spec: the claims' reading of the bitmap, "little-endian
bit ordering within each byte" — bit `idx` is bit `idx % 8` counted from the
least significant bit of byte `idx / 8`.  This is NOT what the source's
`BitArray` indexing does; it exists only to state the comparison. -/
def specLittleEndianBit (data : Bytes) (idx : Nat) : Bool :=
  (data.getD (idx / 8) 0).testBit (idx % 8)

/-!
Concrete single-group test images.  All of them use the same geometry:
`log_block_size = 0` so `block_size = 1024`, `inode_size = 128` (so 8 inodes
per block), `inodes_per_group = 8` (one inode-table block),
`blocks_per_group = 8` and `blocks_count = 1` (so `nb_block_groups =
ceil(1/8) = 1`).  The source reads the group descriptor at byte offset
`block_size` = 1024, which for this geometry overlaps the superblock bytes:
`bg_block_bitmap` aliases `s_inodes_count` (unused — the block-bitmap read
is discarded), `bg_inode_bitmap` aliases `s_blocks_count` (= 1, so the
inode bitmap is the block at byte 1024, overlapping the superblock record
itself: its first byte aliases the low byte of the unused `s_inodes_count`)
and `bg_inode_table` aliases `s_r_blocks_count` (= 2, so the inode table is
the block at byte 2048).  Inode-table slot 0 (inode number 1) is never
allocated in these images, so directory or file data blocks may point at
block 2 and reuse slot 0's 128 record bytes.  Each image is a zero image
with a handful of bytes set. -/
def setBytes (l : Bytes) : List (Nat × Nat) → Bytes
  | [] => l
  | (i, v) :: rest => setBytes (l.set i v) rest

/-- Superblock bytes shared by the concrete images (see the comment above):
`s_blocks_count` = 1 at 1024+4, `s_r_blocks_count` = 2 at 1024+8,
`s_blocks_per_group` = 8 at 1024+32, `s_inodes_per_group` = 8 at 1024+40,
`s_inode_size` = 128 at 1024+88. -/
def baseGeometry : List (Nat × Nat) :=
  [(1028, 1), (1032, 2), (1056, 8), (1064, 8), (1112, 128)]

/-- Image for claim C4: the inode bitmap's first byte (at 1024) is 0x01,
everything else in the bitmap is 0, and all eight inode-table records (from
byte 2048) are zero bytes. -/
def imgC4 : Bytes := setBytes (List.replicate 2944 0) (baseGeometry ++ [(1024, 1)])

/-- Image for claim C5: `s_first_ino` = 3 (at 1024+84); the bitmap byte 0x04
allocates exactly inode number 5 under the source's `BitArray` indexing;
slot 5's record (at 2048 + 4*128 = 2560) is a directory (`i_mode` = 0x4000)
whose first block pointer (offset 2560+40) is block 2, and block 2 (byte
2048, slot 0's unallocated record bytes) holds one entry: inode 11, record
length 12, name length 1, type 2, name `a` (0x61), followed by a zero-inode
terminator at 2060. -/
def imgC5 : Bytes :=
  setBytes (List.replicate 2688 0)
    (baseGeometry ++
      [(1108, 3), (1024, 4), (2561, 64), (2600, 2),
       (2048, 11), (2052, 12), (2054, 1), (2055, 2), (2056, 97)])

/-- Image for claim C2: the bitmap byte 0x20 allocates exactly inode number
2 (the root) under the source's `BitArray` indexing; slot 1's record (at
2048 + 128 = 2176) is a directory with first block pointer 2, and block 2
(byte 2048, slot 0's unallocated record bytes) holds the two entries `.`
and `..` (both inode 2, record length 12) followed by a zero-inode
terminator at 2072. -/
def imgC2 : Bytes :=
  setBytes (List.replicate 2304 0)
    (baseGeometry ++
      [(1024, 32), (2177, 64), (2216, 2),
       (2048, 2), (2052, 12), (2054, 1), (2055, 2), (2056, 46),
       (2060, 2), (2064, 12), (2066, 2), (2067, 2), (2068, 46), (2069, 46)])

/-- Image for claim C1: the bitmap byte 0x18 allocates exactly inode numbers
3 and 4.  Slot 2 (at 2048 + 2*128 = 2304) is a regular file (`i_mode` =
0x8000) of declared size 100 with first block pointer 2; slot 3 (at 2432)
is a regular file of declared size 2000 (0x07D0) with first block pointer 2.
Both file reads land at byte 2048 with 64 bytes available. -/
def imgC1 : Bytes :=
  setBytes (List.replicate 2560 0)
    (baseGeometry ++
      [(1024, 24),
       (2305, 128), (2308, 100), (2344, 2),
       (2433, 128), (2436, 208), (2437, 7), (2472, 2)])

/-- Image for claim C8's witness: 1300 zero bytes with `s_blocks_count` = 16,
`s_blocks_per_group` = 8 and `s_inode_size` = 128, so the superblock decodes
with `nb_block_groups = ceil(16/8) = 2`. -/
def imgC8 : Bytes :=
  setBytes (List.replicate 1300 0) [(1028, 16), (1056, 8), (1112, 128)]

/-- Image for claim C8's counterexample: `s_log_block_size` = 50 (so
`block_size` = 2^60) and `s_inode_size` = 3; `blocks_count` = 1 and
`blocks_per_group` = 8 keep the group count at 1.  Python's
`int(2^60 / 3)` rounds the quotient to the binary64 grid (ulp 64 at that
magnitude) before truncating, giving 384307168202282304, while the exact
floor is 384307168202282325. -/
def imgC8cx : Bytes :=
  setBytes (List.replicate 1300 0) [(1028, 1), (1048, 50), (1056, 8), (1112, 3)]

/-- Image for claim C8's counterexample, overflow part:
`s_log_block_size` = 1014 (bytes 0xF6, 0x03 little-endian at offset
1024+24) and `s_inode_size` = 1, so `block_size / inode_size` = 2^1024,
which overflows binary64: Python raises `OverflowError` at
`ext2reader.py:142`, before the group-count assert ever runs — even though
this image's group count would be ceil(1/8) = 1. -/
def imgC8ov : Bytes :=
  setBytes (List.replicate 1300 0) [(1028, 1), (1048, 246), (1049, 3), (1056, 8), (1112, 1)]

/-- Image for claim C10's counterexample: like `imgC1`, the bitmap byte
0x10 allocates exactly inode number 3, whose record (at 2304) is a regular
file of declared size 100 with first block pointer 2 — but the file
content at byte 2048 starts with the byte 0xFF, which no UTF-8 sequence
allows. -/
def imgC10 : Bytes :=
  setBytes (List.replicate 2560 0)
    (baseGeometry ++
      [(1024, 16), (2305, 128), (2308, 100), (2344, 2), (2048, 255)])

/-- Reading the 0xFF-content file (inode 3) of `imgC10`. -/
def readC10 : Except PyErr Bytes :=
  match parse imgC10 with
  | .error e => .error e
  | .ok v => read_data_from_inode v.table 3

/-- Resolving the path `/` on the volume parsed from `imgC2`. -/
def resolveRootC2 : Except PyErr Nat :=
  match parse imgC2 with
  | .error e => .error e
  | .ok v => find_inode_for_path v.table [47]

/-- Reading the declared-size-100 file (inode 3) of `imgC1`. -/
def readSmallC1 : Except PyErr Bytes :=
  match parse imgC1 with
  | .error e => .error e
  | .ok v => read_data_from_inode v.table 3

/-- Reading the declared-size-2000 file (inode 4) of `imgC1`. -/
def readBigC1 : Except PyErr Bytes :=
  match parse imgC1 with
  | .error e => .error e
  | .ok v => read_data_from_inode v.table 4

/-- A directory data block for claim C7's counterexample: one entry with
inode 1, declared record length 300 (0x012C), name length 1, type 2, name
`a`, then zero bytes; the zero-inode terminator is met at offset 300. -/
def img7 : Bytes :=
  setBytes (List.replicate 308 0) [(0, 1), (4, 44), (5, 1), (6, 1), (7, 2), (8, 97)]

/-- A 128-byte inode record whose `i_mode` is 0xA000 (symbolic link). -/
def recA000 : Bytes := setBytes (List.replicate 128 0) [(1, 160)]

/-- A root inode for claim C2's witness: a directory holding the usual `.`
and `..` entries (and certainly no empty-named entry). -/
def rootC2ino : Inode :=
  { mode := 0x4000, size := 0, block := List.replicate 15 0
    files := [([46], { index := 2, inode_type := 2, name := [46] }),
              ([46, 46], { index := 2, inode_type := 2, name := [46, 46] })]
    raw_data := [] }

/-- A one-entry inode table with the root of `rootC2ino`. -/
def tableC2W : Table := [(2, rootC2ino)]

/-- A 10-byte image of sevens for claim C1's witness. -/
def imgW1 : Bytes := List.replicate 10 7

/-- A regular-file inode of declared size 3 for claim C1's witness. -/
def inoW1 : Inode :=
  { mode := 0x8000, size := 3, block := List.replicate 15 0, files := [], raw_data := [] }

/-- An 80-byte image of fives for claim C10's witness. -/
def imgW10 : Bytes := List.replicate 80 5

/-- A regular-file inode of declared size 100 for claim C10's witness. -/
def inoW10 : Inode :=
  { mode := 0x8000, size := 100, block := List.replicate 15 0, files := [], raw_data := [] }

/-- Image for claim C5's witness: a 128-byte directory record at offset 0
(`i_mode` = 0x4000, first block pointer 1) and a zero-inode terminator at
byte 1024. -/
def img5w : Bytes := setBytes (List.replicate 1032 0) [(1, 64), (40, 1)]

/-- The record of `img5w` as `decodeInode` yields it. -/
def inoW5 : Inode :=
  { mode := 0x4000, size := 0
    block := [1, 0, 0, 0, 0, 0, 0, 0, 0, 0, 0, 0, 0, 0, 0]
    files := [], raw_data := [] }

/-- A coherent superblock for claim C5's witness (1024-byte blocks, one
128-byte inode per table block, one table block, `s_first_ino` = 3). -/
def sbW5 : SuperBlock :=
  { blocks_count := 8, blocks_per_group := 8, log_block_size := 0, inode_size := 128
    inodes_per_group := 1, first_ino := 3, block_size := 1024, inodes_per_block := 1
    inode_table_size := 1, nb_block_groups := 1 }

/-- A coherent superblock for claim C4's witness: two 128-byte inode slots
in one table block. -/
def sbW4 : SuperBlock :=
  { blocks_count := 2, blocks_per_group := 8, log_block_size := 0, inode_size := 128
    inodes_per_group := 2, first_ino := 0, block_size := 1024, inodes_per_block := 2
    inode_table_size := 1, nb_block_groups := 1 }

/-- An all-zero 128-byte image: one zero inode record, for claim C4's
witness. -/
def imgW4 : Bytes := List.replicate 128 0

/-- The decoded all-zero inode record. -/
def zeroIno : Inode :=
  { mode := 0, size := 0, block := List.replicate 15 0, files := [], raw_data := [] }

/-- The explicit superblock `mkSuperBlock` decodes from `imgC8`. -/
def sbC8 : SuperBlock :=
  { blocks_count := 16, blocks_per_group := 8, log_block_size := 0, inode_size := 128
    inodes_per_group := 0, first_ino := 0, block_size := 1024, inodes_per_block := 8
    inode_table_size := 0, nb_block_groups := 2 }

/-- Block-pointer slots for claim C9's counterexample: slot 0 holds 2^31,
whose little-endian bytes are 0, 0, 0, 0x80 — so the reinterpreted byte
string starts with a zero byte, yet `struct.pack("15i", ...)` rejects the
value outright. -/
def blkCx : List Nat := [2147483648, 0, 0, 0, 0, 0, 0, 0, 0, 0, 0, 0, 0, 0, 0]

/-- Block-pointer slots for claim C9's witness: slot 0 holds 104 (`h`),
so the reinterpreted byte string is `h` followed by zero bytes. -/
def blkW9 : List Nat := [104, 0, 0, 0, 0, 0, 0, 0, 0, 0, 0, 0, 0, 0, 0]

/-!
Theorems.
-/

/-- Out of fuel: the Python loop diverges (record length 0 repeats forever). -/
theorem walkEntries_zero (img : Bytes) (off : Nat) (fs : Files) :
    walkEntries img 0 off fs = .error .divergence := rfl

/-- One iteration of the `while True:` entry loop. -/
theorem walkEntries_succ (img : Bytes) (fuel off : Nat) (fs : Files) :
    walkEntries img (fuel + 1) off fs =
      (if (readBytes img off 8).length = 8 then
        if u32le (readBytes img off 8) 0 = 0 then .ok fs
        else if 128 ≤ byteAt (readBytes img off 8) 6 then .error .structError
        else if (readBytes img (off + 8) (byteAt (readBytes img off 8) 6)).length =
            byteAt (readBytes img off 8) 6 then
          walkEntries img fuel (off + u16le (readBytes img off 8) 4)
            (insertIfAbsent fs (readBytes img (off + 8) (byteAt (readBytes img off 8) 6))
              { index := u32le (readBytes img off 8) 0
                inode_type := toSigned8 (byteAt (readBytes img off 8) 7)
                name := readBytes img (off + 8) (byteAt (readBytes img off 8) 6) })
        else .error .structError
      else .error .structError) := rfl

/-- C6 (confirmed): the directory name map is built by the reference walk:
at each step the 8-byte header is read at the cursor; an entry with inode
number 0 terminates the block's entry list returning the map built so far;
a non-terminator entry with a readable name advances the cursor by the
entry's declared record length (not by header plus name length) and inserts
the entry keyed by its name; and insertion keeps the first occurrence of a
name, silently discarding later ones, so the listed names appear in on-disk
encounter order without later duplicates. -/
theorem c6_dir_walk (img : Bytes) (fuel off : Nat) (fs : Files) (hdr : Bytes)
    (hh : readBytes img off 8 = hdr) (h8 : hdr.length = 8) :
    (u32le hdr 0 = 0 → walkEntries img (fuel + 1) off fs = .ok fs)
    ∧ (∀ name : Bytes, u32le hdr 0 ≠ 0 → byteAt hdr 6 < 128 →
        readBytes img (off + 8) (byteAt hdr 6) = name → name.length = byteAt hdr 6 →
        walkEntries img (fuel + 1) off fs =
          walkEntries img fuel (off + u16le hdr 4)
            (insertIfAbsent fs name
              { index := u32le hdr 0, inode_type := toSigned8 (byteAt hdr 7), name := name }))
    ∧ (∀ (name : Bytes) (e : DirEntry), hasKey fs name = true → insertIfAbsent fs name e = fs)
    ∧ (∀ (name : Bytes) (e : DirEntry), hasKey fs name = false →
        insertIfAbsent fs name e = fs ++ [(name, e)] ∧
        (fs ++ [(name, e)]).map Prod.fst = fs.map Prod.fst ++ [name]) := by
  refine ⟨?_, ?_, ?_, ?_⟩
  · intro h0
    rw [walkEntries_succ, hh]
    simp [h8, h0]
  · intro name h0 hnl hname hlen
    have hnle : ¬ 128 ≤ byteAt hdr 6 := by omega
    rw [walkEntries_succ, hh, hname]
    simp [h8, h0, hlen, hnle]
  · intro name e hk
    simp [insertIfAbsent, hk]
  · intro name e hk
    simp [insertIfAbsent, hk]

/-- Witness for C6 at concrete inputs: a lone zero-inode header terminates
the walk immediately, and inserting a fresh name appends it. -/
theorem c6_dir_walk_witness :
    walkEntries (List.replicate 8 0) 5 0 [] = .ok []
    ∧ insertIfAbsent [] [97] { index := 1, inode_type := 2, name := [97] } =
        [([97], { index := 1, inode_type := 2, name := [97] })] :=
  ⟨(c6_dir_walk (List.replicate 8 0) 4 0 [] (readBytes (List.replicate 8 0) 0 8) rfl
      (by decide)).1 (by decide),
   ((c6_dir_walk (List.replicate 8 0) 4 0 [] (readBytes (List.replicate 8 0) 0 8) rfl
      (by decide)).2.2.2 [97] { index := 1, inode_type := 2, name := [97] } rfl).1⟩

set_option maxRecDepth 8000 in
/-- Counterexample for C7: a directory entry with declared record length
300 > 263 does not fail the scan; the walk advances the cursor by 300,
meets the zero-inode terminator there, and succeeds with the entry kept. -/
theorem c7_counterexample :
    walkEntries img7 310 0 [] =
      .ok [([97], { index := 1, inode_type := 2, name := [97] })]
    ∧ u16le (readBytes img7 0 8) 4 = 300 ∧ 263 < 300 := by
  refine ⟨by decide, by decide, by decide⟩

/-- C7 as amended: the directory-entry walk enforces no bound at all on the
declared record length; even an entry whose declared record length exceeds
8 + 255 bytes is accepted, and the cursor is advanced by that declared
length with no `CorruptDirectory`-style failure. -/
theorem c7_amended (img : Bytes) (fuel off : Nat) (fs : Files)
    (h8 : (readBytes img off 8).length = 8)
    (hidx : u32le (readBytes img off 8) 0 ≠ 0)
    (hnl : byteAt (readBytes img off 8) 6 < 128)
    (hname : (readBytes img (off + 8) (byteAt (readBytes img off 8) 6)).length =
      byteAt (readBytes img off 8) 6)
    (_hbig : 263 < u16le (readBytes img off 8) 4) :
    walkEntries img (fuel + 1) off fs =
      walkEntries img fuel (off + u16le (readBytes img off 8) 4)
        (insertIfAbsent fs (readBytes img (off + 8) (byteAt (readBytes img off 8) 6))
          { index := u32le (readBytes img off 8) 0
            inode_type := toSigned8 (byteAt (readBytes img off 8) 7)
            name := readBytes img (off + 8) (byteAt (readBytes img off 8) 6) }) := by
  have hnle : ¬ 128 ≤ byteAt (readBytes img off 8) 6 := by omega
  rw [walkEntries_succ]
  simp [h8, hidx, hname, hnle]

/-- Witness for C7's amended claim at `img7`: the 300-byte record length is
taken from the header and walked over. -/
theorem c7_amended_witness :
    walkEntries img7 310 0 [] =
      walkEntries img7 309 (0 + u16le (readBytes img7 0 8) 4)
        (insertIfAbsent [] (readBytes img7 (0 + 8) (byteAt (readBytes img7 0 8) 6))
          { index := u32le (readBytes img7 0 8) 0
            inode_type := toSigned8 (byteAt (readBytes img7 0 8) 7)
            name := readBytes img7 (0 + 8) (byteAt (readBytes img7 0 8) 6) }) :=
  c7_amended img7 309 0 [] (by decide) (by decide) (by decide) (by decide) (by decide)

set_option maxRecDepth 8000 in
/-- Counterexample for C3: `ext2reader.py`'s decoded record with type field
0xA000 (symbolic link) has `is_file` true even though its masked type is
not the regular-file code — the predicates there are any-bit tests, not
exact-match tests. -/
theorem c3_counterexample :
    (decodeInode recA000).map (fun i => (i.is_file, i.is_link, i.mode &&& 0xF000 == 0x8000)) =
      .ok (true, true, false) := by decide

/-- The signed 16-bit detour of `inode.py` is invisible under a 16-bit mask:
for a u16 `m`, Python's `read_s`-then-`& mask` equals `m & mask`. -/
theorem pyAnd16_signed_eq (m mask : Nat) (hm : m < 65536) :
    pyAnd16 (i_mode_signed m) mask = m &&& mask := by
  have h : (i_mode_signed m % 65536).toNat = m := by
    unfold i_mode_signed
    split <;> omega
  rw [pyAnd16, h]

/-- C3 as amended: in `inode.py` the type predicates are exact-match tests
on the type sub-field (bits 12-15), so a symbolic-link record (0xA000) is a
link and not a regular file there; but in `ext2reader.py` the predicates
are any-bit tests (`mode & code != 0`), so a record whose type field is
0xA000 is classified there as a link AND as a regular file. -/
theorem c3_amended :
    (∀ m : Nat, m < 65536 →
      MInode.is_file m = (m &&& 0xF000 == 0x8000)
      ∧ MInode.is_dir m = (m &&& 0xF000 == 0x4000)
      ∧ MInode.is_link m = (m &&& 0xF000 == 0xA000))
    ∧ MInode.is_file 0xA000 = false ∧ MInode.is_link 0xA000 = true
    ∧ (∀ i : Inode, i.mode &&& 0xF000 = 0xA000 →
        i.is_file = true ∧ i.is_link = true ∧ i.is_dir = false) := by
  refine ⟨?_, by decide, by decide, ?_⟩
  · intro m hm
    refine ⟨?_, ?_, ?_⟩ <;>
      simp only [MInode.is_file, MInode.is_dir, MInode.is_link, pyAnd16_signed_eq m _ hm]
  · intro i hi
    have h8 : i.mode &&& 0x8000 = 0x8000 := by
      have := Nat.and_assoc i.mode 0xF000 0x8000
      simpa [hi] using this.symm
    have ha : i.mode &&& 0xA000 = 0xA000 := by
      have := Nat.and_assoc i.mode 0xF000 0xA000
      simpa [hi] using this.symm
    have h4 : i.mode &&& 0x4000 = 0 := by
      have := Nat.and_assoc i.mode 0xF000 0x4000
      simpa [hi] using this.symm
    simp [Inode.is_file, Inode.is_dir, Inode.is_link, h8, ha, h4]

/-- Witness for C3's amended claim at concrete modes. -/
theorem c3_amended_witness :
    MInode.is_file 0x8000 = ((0x8000 : Nat) &&& 0xF000 == 0x8000)
    ∧ MInode.is_dir 0x4000 = ((0x4000 : Nat) &&& 0xF000 == 0x4000)
    ∧ ({ mode := 0xA000, size := 0, block := [], files := [], raw_data := [] } : Inode).is_file
        = true :=
  ⟨(c3_amended.1 0x8000 (by decide)).1, (c3_amended.1 0x4000 (by decide)).2.1,
   (c3_amended.2.2.2 { mode := 0xA000, size := 0, block := [], files := [], raw_data := [] }
      (by decide)).1⟩

/-- The repacked block-pointer array is 4 bytes per slot. -/
theorem flatMap_u32ToLEBytes_length (l : List Nat) :
    (l.flatMap u32ToLEBytes).length = 4 * l.length := by
  induction l with
  | nil => simp
  | cons a l ih => simp [u32ToLEBytes, ih]; omega

/-- Counterexample for C9: with slot 0 holding 2^31 the reinterpreted
60-byte string does contain a zero byte (indeed it starts with one), so the
claim demands the prefix before it be returned — but `get_link_path` fails
with `struct.error` at the repack instead, because `struct.pack("15i", ...)`
rejects values at or above 2^31. -/
theorem c9_counterexample :
    get_link_path 0xA000 blkCx = .error .structError
    ∧ (blkCx.flatMap u32ToLEBytes).contains 0 = true
    ∧ MInode.is_link 0xA000 = true := by
  refine ⟨by decide, by decide, by decide⟩

/-- C9 as amended: for a symbolic-link inode all of whose 15 block-pointer
slot values are below 2^31, decoding the inline target reinterprets the
slots as a 60-byte raw byte string, takes the prefix before the first zero
byte and returns it UTF-8-decoded — failing (`UnicodeDecodeError`) when
that prefix is not valid UTF-8, and failing (`BrokenSymlink`) when no zero
byte occurs in the 60 bytes; a slot value at or above 2^31 instead makes
the repack itself fail (`struct.error`) before any prefix is taken. -/
theorem c9_amended (mode : Nat) (blk : List Nat)
    (hlink : MInode.is_link mode = true) (hlen : blk.length = 15)
    (hsmall : ∀ v ∈ blk, v < 2147483648) :
    (blk.flatMap u32ToLEBytes).length = 60
    ∧ (∀ i : Nat, (blk.flatMap u32ToLEBytes).findIdx? (fun b => b == 0) = some i →
        utf8Valid ((blk.flatMap u32ToLEBytes).take i) = true →
        get_link_path mode blk = .ok ((blk.flatMap u32ToLEBytes).take i))
    ∧ (∀ i : Nat, (blk.flatMap u32ToLEBytes).findIdx? (fun b => b == 0) = some i →
        utf8Valid ((blk.flatMap u32ToLEBytes).take i) = false →
        get_link_path mode blk = .error .unicodeDecodeError)
    ∧ ((blk.flatMap u32ToLEBytes).findIdx? (fun b => b == 0) = none →
        get_link_path mode blk = .error .brokenSymlink) := by
  have hall : blk.all (fun v => decide (v < 2147483648)) = true := by
    rw [List.all_eq_true]
    intro v hv
    exact decide_eq_true (hsmall v hv)
  have hpack : pack15i blk = .ok (blk.flatMap u32ToLEBytes) := by
    simp [pack15i, hlen, hall]
  refine ⟨by rw [flatMap_u32ToLEBytes_length, hlen], ?_, ?_, ?_⟩
  · intro i hi hdec
    simp [get_link_path, hlink, hpack, hi, hdec]
  · intro i hi hdec
    simp [get_link_path, hlink, hpack, hi, hdec]
  · intro hnone
    simp [get_link_path, hlink, hpack, hnone]

/-- Witness for C9's amended claim: the slots of `blkW9` decode to the
one-byte target `h` (0x68, valid UTF-8). -/
theorem c9_amended_witness :
    get_link_path 0xA000 blkW9 = .ok ((blkW9.flatMap u32ToLEBytes).take 1) :=
  (c9_amended 0xA000 blkW9 (by decide) (by decide) (by decide)).2.1 1 (by decide) (by decide)

set_option maxRecDepth 100000 in
/-- Counterexample for C1: in `imgC1`, inode 3 is a regular file of declared
on-disk size 100, which is at most the block size 1024, yet the data read
returns 64 bytes, not 100; and inode 4 has declared size 2000, greater than
the block size, yet the read succeeds (64 bytes) instead of failing with
`UnsupportedFile`. -/
theorem c1_counterexample :
    readSmallC1.map List.length = .ok 64
    ∧ u32le (readBytes imgC1 2304 128) 4 = 100 ∧ 100 ≤ 1024
    ∧ readBigC1.map List.length = .ok 64
    ∧ u32le (readBytes imgC1 2432 128) 4 = 2000 ∧ 1024 < 2000 := by
  exact ⟨by decide, by decide, by decide, by decide, by decide, by decide⟩

/-- C1 as amended: for a regular-file record the eager data read stores
`min(declared size, 64)` bytes starting at byte offset
`block_pointer[0] * block_size`; in particular a file of declared size at
most 64 (such as the 13-byte example) is stored exactly, while larger
declared sizes — whether or not they exceed the block size — are truncated
to 64 bytes and never fail with `UnsupportedFile`; `read_data_from_inode`
then returns exactly the stored bytes as UTF-8-decoded text when they are
valid UTF-8, and fails with `UnicodeDecodeError` otherwise. -/
theorem c1_amended (img : Bytes) (bs : Nat) (ino : Inode) (idx : Nat)
    (hf : ino.is_file = true) :
    (fileDataOf img bs ino).size = min ino.size 64
    ∧ (fileDataOf img bs ino).raw_data =
        readBytes img (ino.block.getD 0 0 * bs) (min ino.size 64)
    ∧ (ino.size ≤ 64 →
        (fileDataOf img bs ino).raw_data = readBytes img (ino.block.getD 0 0 * bs) ino.size)
    ∧ (ino.block.getD 0 0 * bs + min ino.size 64 ≤ img.length →
        (fileDataOf img bs ino).raw_data.length = min ino.size 64)
    ∧ (utf8Valid (fileDataOf img bs ino).raw_data = true →
        read_data_from_inode [(idx, fileDataOf img bs ino)] idx =
          .ok ((fileDataOf img bs ino).raw_data))
    ∧ (utf8Valid (fileDataOf img bs ino).raw_data = false →
        read_data_from_inode [(idx, fileDataOf img bs ino)] idx =
          .error .unicodeDecodeError) := by
  have hmin : (if 64 < ino.size then 64 else ino.size) = min ino.size 64 := by
    split <;> omega
  have hmode : (fileDataOf img bs ino).mode = ino.mode := by
    unfold fileDataOf
    split <;> rfl
  have hf2 : (fileDataOf img bs ino).is_file = true := by
    rw [Inode.is_file, hmode]
    exact hf
  refine ⟨?_, ?_, ?_, ?_, ?_, ?_⟩
  · simp [fileDataOf, hf, hmin]
  · simp [fileDataOf, hf, hmin]
  · intro hle
    have : min ino.size 64 = ino.size := by omega
    simp [fileDataOf, hf, hmin, this]
  · intro hlen
    simp only [fileDataOf, hf, if_true, hmin]
    rw [readBytes, List.length_take, List.length_drop]
    omega
  · intro hdec
    simp [read_data_from_inode, pyDictGet, List.find?, hf2, hdec]
  · intro hdec
    simp [read_data_from_inode, pyDictGet, List.find?, hf2, hdec]

/-- Witness for C1's amended claim: the 3-byte file of `imgW1` is stored as
exactly 3 bytes from offset 0 and read back (the bytes 0x07 are ASCII, so
valid UTF-8). -/
theorem c1_amended_witness :
    (fileDataOf imgW1 1 inoW1).raw_data = readBytes imgW1 (inoW1.block.getD 0 0 * 1) inoW1.size
    ∧ (fileDataOf imgW1 1 inoW1).raw_data.length = min inoW1.size 64
    ∧ read_data_from_inode [(1, fileDataOf imgW1 1 inoW1)] 1 =
        .ok ((fileDataOf imgW1 1 inoW1).raw_data) :=
  ⟨(c1_amended imgW1 1 inoW1 1 rfl).2.2.1 (by decide),
   (c1_amended imgW1 1 inoW1 1 rfl).2.2.2.1 (by decide),
   (c1_amended imgW1 1 inoW1 1 rfl).2.2.2.2.1 (by decide)⟩

set_option maxRecDepth 100000 in
/-- Counterexample for C10: in `imgC10`, inode 3 is a regular file whose
stored (clamped) size is 64, but its content starts with the byte 0xFF,
which is not valid UTF-8 — so the subsequent file read raises
`UnicodeDecodeError` instead of returning min(declared, 64) = 64 bytes as
the claim states. -/
theorem c10_counterexample :
    readC10 = .error .unicodeDecodeError
    ∧ (parse imgC10).map (fun v => (pyDictGet v.table 3).map Inode.size) = .ok (some 64) := by
  exact ⟨by decide, by decide⟩

/-- C10 as amended: a regular-file record is read eagerly at Group
construction, and the read is clamped at 64 bytes: when the decoded size
field exceeds 64 the stored size is overwritten with 64 and exactly 64
bytes from `block_pointer[0] * block_size` are kept, so the stored
metadata never shows a size above 64; the subsequent data read returns
those `min(declared, 64)` stored bytes as UTF-8-decoded text when they are
valid UTF-8, and fails with `UnicodeDecodeError` otherwise. -/
theorem c10_eager_clamp (img : Bytes) (bs : Nat) (ino : Inode) (idx : Nat)
    (hf : ino.is_file = true) (hbig : 64 < ino.size)
    (hlen : ino.block.getD 0 0 * bs + 64 ≤ img.length) :
    (fileDataOf img bs ino).size = 64
    ∧ (fileDataOf img bs ino).raw_data = readBytes img (ino.block.getD 0 0 * bs) 64
    ∧ (fileDataOf img bs ino).raw_data.length = 64
    ∧ (fileDataOf img bs ino).size ≤ 64
    ∧ (utf8Valid (fileDataOf img bs ino).raw_data = true →
        read_data_from_inode [(idx, fileDataOf img bs ino)] idx =
          .ok (readBytes img (ino.block.getD 0 0 * bs) 64))
    ∧ (utf8Valid (fileDataOf img bs ino).raw_data = false →
        read_data_from_inode [(idx, fileDataOf img bs ino)] idx =
          .error .unicodeDecodeError) := by
  have hmode : (fileDataOf img bs ino).mode = ino.mode := by
    unfold fileDataOf
    split <;> rfl
  have hf2 : (fileDataOf img bs ino).is_file = true := by
    rw [Inode.is_file, hmode]
    exact hf
  have hraw : (fileDataOf img bs ino).raw_data = readBytes img (ino.block.getD 0 0 * bs) 64 := by
    simp [fileDataOf, hf, hbig]
  refine ⟨by simp [fileDataOf, hf, hbig], hraw, ?_, by simp [fileDataOf, hf, hbig], ?_, ?_⟩
  · rw [hraw, readBytes, List.length_take, List.length_drop]
    omega
  · intro hdec
    rw [hraw] at hdec
    simp only [List.getD_eq_getElem?_getD] at hdec
    simp [read_data_from_inode, pyDictGet, List.find?, hf2, hraw, hdec]
  · intro hdec
    simp [read_data_from_inode, pyDictGet, List.find?, hf2, hdec]

/-- Witness for C10's amended claim at `imgW10`: the declared-size-100 file
is stored with size 64 and 64 bytes of data, and (its 0x05 content being
valid UTF-8) is returned by the subsequent read. -/
theorem c10_eager_clamp_witness :
    (fileDataOf imgW10 1 inoW10).size = 64
    ∧ (fileDataOf imgW10 1 inoW10).raw_data.length = 64
    ∧ read_data_from_inode [(2, fileDataOf imgW10 1 inoW10)] 2 =
        .ok (readBytes imgW10 (inoW10.block.getD 0 0 * 1) 64) :=
  ⟨(c10_eager_clamp imgW10 1 inoW10 2 rfl (by decide) (by decide)).1,
   (c10_eager_clamp imgW10 1 inoW10 2 rfl (by decide) (by decide)).2.2.1,
   (c10_eager_clamp imgW10 1 inoW10 2 rfl (by decide) (by decide)).2.2.2.2.1 (by decide)⟩

set_option maxRecDepth 100000 in
/-- Counterexample for C2: `imgC2` is a valid single-group image whose root
inode (number 2) is present in the parsed table, yet resolving the path `/`
does not return the root: it fails with `NotFound` naming the empty
component. -/
theorem c2_counterexample :
    resolveRootC2 = .error (.notFound [])
    ∧ (parse imgC2).map (fun v => (pyDictGet v.table 2).isSome) = .ok true := by
  exact ⟨by decide, by decide⟩

/-- C2 as amended: the path `/` splits into `[""]` — a single empty
component, not an all-empty list that is shortcut to the root — so
resolution looks the empty name up in the root directory and fails with
`NotFound` naming the empty component whenever the root has no empty-named
entry; in general, resolution walks the components in order from inode 2
and fails with `NotFound`, naming the missing component, as soon as a
component matches no entry name of the current inode. -/
theorem c2_amended :
    (∀ (t : Table) (root : Inode), pyDictGet t 2 = some root →
      root.files.find? (fun kv => kv.2.name == ([] : Bytes)) = none →
      find_inode_for_path t [47] = .error (.notFound []))
    ∧ (∀ (t : Table) (p : Bytes) (rest : List Bytes) (idx : Nat) (ino : Inode),
        pyDictGet t idx = some ino →
        ino.files.find? (fun kv => kv.2.name == p) = none →
        resolveLoop t (p :: rest) idx = .error (.notFound p)) := by
  constructor
  · intro t root h1 h2
    have hsplit : ((([47] : Bytes).splitOn 47).drop 1) = [[]] := by decide
    have hhead : ([47] : Bytes).head? = some 47 := rfl
    rw [find_inode_for_path, if_pos hhead, hsplit, resolveLoop]
    simp only [h1, h2]
  · intro t p rest idx ino h1 h2
    rw [resolveLoop]
    simp only [h1, h2]

/-- Witness for C2's amended claim: on the concrete table `tableC2W` (root
with `.` and `..`), resolving `/` fails naming the empty component. -/
theorem c2_amended_witness :
    find_inode_for_path tableC2W [47] = .error (.notFound []) :=
  c2_amended.1 tableC2W rootC2ino (by decide) (by decide)

set_option maxRecDepth 100000 in
/-- Counterexample for C5: in `imgC5` the superblock's first ordinarily
allocatable inode index is 3, and inode 5 — which is neither the root (2)
nor below 3 — is an allocated directory; the claim says its contents are
left unparsed (empty name map), yet Group construction parses them: its
name map holds the entry `a`. -/
theorem c5_counterexample :
    (parse imgC5).map
        (fun v => (v.superblock.first_ino, v.table.map (fun kv => (kv.1, kv.2.files.map Prod.fst)))) =
      .ok (3, [(5, [[97]])]) := by
  decide

/-- C5 as amended: Group construction parses directory contents for every
allocated inode whose directory bit is set, whatever its inode number — the
source has no gating on the root index or on the superblock's
first-ordinarily-allocatable index (`s_first_ino` is decoded but never
consulted).  For any inode number `i * inodes_per_block + j + 1` whose
bitmap bit is set and whose record decodes to a directory, a successful
slot step runs the directory walk and stores the record with the parsed
name map. -/
theorem c5_amended (img : Bytes) (sb : SuperBlock) (bitmap : Bytes) (tblOff : Nat)
    (t : Table) (i j : Nat) (ino : Inode) (t2 : Table)
    (hbit : bitArrayGet bitmap (i * sb.inodes_per_block + j + 1) = some true)
    (hdec : decodeInode
        (readBytes img (tblOff + sb.block_size * i + sb.inode_size * j) sb.inode_size) = .ok ino)
    (hdir : ino.is_dir = true)
    (hok : processSlot img sb bitmap tblOff t i j = .ok t2) :
    ∃ ino2, parseDirs img sb.block_size ino = .ok ino2 ∧
      t2 = t ++ [(i * sb.inodes_per_block + j + 1, fileDataOf img sb.block_size ino2)] := by
  unfold processSlot at hok
  simp only [hbit, hdec, hdir, if_true] at hok
  rcases hpd : parseDirs img sb.block_size ino with e | ino2
  · simp only [hpd] at hok
    exact Except.noConfusion hok
  · simp only [hpd, Except.ok.injEq] at hok
    exact ⟨ino2, rfl, hok.symm⟩

set_option maxRecDepth 100000 in
/-- Witness for C5's amended claim at `img5w`: slot (0,0) of `sbW5` holds an
allocated directory whose contents get parsed. -/
theorem c5_amended_witness :
    ∃ ino2, parseDirs img5w sbW5.block_size inoW5 = .ok ino2 ∧
      ([(1, inoW5)] : Table) =
        [] ++ [(0 * sbW5.inodes_per_block + 0 + 1, fileDataOf img5w sbW5.block_size ino2)] :=
  c5_amended img5w sbW5 [64] 0 [] 0 0 inoW5 [(1, inoW5)] (by decide) (by decide) (by decide)
    (by decide)

/-- A successful slot step appends the slot's inode number exactly when its
bitmap bit (as the source indexes it) is set. -/
theorem processSlot_keys (img : Bytes) (sb : SuperBlock) (bm : Bytes) (off : Nat)
    (t t2 : Table) (i j : Nat)
    (h : processSlot img sb bm off t i j = .ok t2) :
    t2.map Prod.fst = t.map Prod.fst ++
      (if bitArrayGet bm (i * sb.inodes_per_block + j + 1) = some true
        then [i * sb.inodes_per_block + j + 1] else []) := by
  unfold processSlot at h
  rcases hb : bitArrayGet bm (i * sb.inodes_per_block + j + 1) with _ | b
  · simp only [hb] at h
    exact Except.noConfusion h
  · cases b
    · simp only [hb, Except.ok.injEq] at h
      simp [hb, ← h]
    · simp only [hb] at h
      rcases hdec : decodeInode
          (readBytes img (off + sb.block_size * i + sb.inode_size * j) sb.inode_size) with e | ino
      · simp only [hdec] at h
        exact Except.noConfusion h
      · simp only [hdec] at h
        rcases hpd : (if ino.is_dir then parseDirs img sb.block_size ino else .ok ino)
            with e | ino2
        · simp only [hpd] at h
          exact Except.noConfusion h
        · simp only [hpd, Except.ok.injEq] at h
          simp [hb, ← h]

/-- The inner slot loop appends, in order, the inode numbers of the slots
whose bitmap bit is set. -/
theorem innerLoop_keys (img : Bytes) (sb : SuperBlock) (bm : Bytes) (off : Nat) (i : Nat) :
    ∀ (js : List Nat) (t t2 : Table),
      innerLoop img sb bm off i js t = .ok t2 →
      t2.map Prod.fst = t.map Prod.fst ++
        (js.filter (fun j =>
            decide (bitArrayGet bm (i * sb.inodes_per_block + j + 1) = some true))).map
          (fun j => i * sb.inodes_per_block + j + 1) := by
  intro js
  induction js with
  | nil =>
    intro t t2 h
    rw [innerLoop] at h
    injection h with h2
    simp [h2]
  | cons j js ih =>
    intro t t2 h
    rw [innerLoop] at h
    rcases hps : processSlot img sb bm off t i j with e | t1
    · simp only [hps] at h
      exact Except.noConfusion h
    · simp only [hps] at h
      have hk1 := processSlot_keys img sb bm off t t1 i j hps
      have hk2 := ih t1 t2 h
      rw [hk2, hk1]
      by_cases hc : bitArrayGet bm (i * sb.inodes_per_block + j + 1) = some true
      · simp [hc, List.filter_cons, List.append_assoc]
      · simp [hc, List.filter_cons]

/-- The outer table-block loop appends the allocated inode numbers of all
its blocks, in order. -/
theorem outerLoop_keys (img : Bytes) (sb : SuperBlock) (bm : Bytes) (off : Nat) :
    ∀ (is : List Nat) (t t2 : Table),
      outerLoop img sb bm off is t = .ok t2 →
      t2.map Prod.fst = t.map Prod.fst ++
        is.flatMap (fun i =>
          ((List.range sb.inodes_per_block).filter (fun j =>
              decide (bitArrayGet bm (i * sb.inodes_per_block + j + 1) = some true))).map
            (fun j => i * sb.inodes_per_block + j + 1)) := by
  intro is
  induction is with
  | nil =>
    intro t t2 h
    rw [outerLoop] at h
    injection h with h2
    simp [h2]
  | cons i is ih =>
    intro t t2 h
    rw [outerLoop] at h
    rcases hin : innerLoop img sb bm off i (List.range sb.inodes_per_block) t with e | t1
    · simp only [hin] at h
      exact Except.noConfusion h
    · simp only [hin] at h
      have hk1 := innerLoop_keys img sb bm off i (List.range sb.inodes_per_block) t t1 hin
      have hk2 := ih t1 t2 h
      rw [hk2, hk1, List.flatMap_cons, List.append_assoc]

/-- C4 as amended: Group construction stores a record for the 1-based inode
number N if and only if N is one of the group's slot numbers and the inode
bitmap — indexed as the source's `BitArray` does, at index N itself (not
N-1) and with bits numbered from the most significant bit of each byte (not
little-endian) — yields `true` at N. -/
theorem c4_amended (img : Bytes) (sb : SuperBlock) (bitmap : Bytes) (tblOff : Nat)
    (t : Table) (N : Nat)
    (h : outerLoop img sb bitmap tblOff (List.range sb.inode_table_size) [] = .ok t) :
    N ∈ t.map Prod.fst ↔
      ((∃ i < sb.inode_table_size, ∃ j < sb.inodes_per_block,
          N = i * sb.inodes_per_block + j + 1) ∧ bitArrayGet bitmap N = some true) := by
  have hk := outerLoop_keys img sb bitmap tblOff (List.range sb.inode_table_size) [] t h
  rw [hk]
  simp only [List.map_nil, List.nil_append, List.mem_flatMap, List.mem_map, List.mem_filter,
    List.mem_range, decide_eq_true_eq]
  constructor
  · rintro ⟨i, hi, j, ⟨hj, hbit⟩, rfl⟩
    exact ⟨⟨i, hi, j, hj, rfl⟩, hbit⟩
  · rintro ⟨⟨i, hi, j, hj, rfl⟩, hbit⟩
    exact ⟨i, hi, j, ⟨hj, hbit⟩, rfl⟩

set_option maxRecDepth 100000 in
/-- Counterexample for C4: in `imgC4` the inode bitmap's first byte is 0x01.
Read little-endian at index N-1 (as the claim states), bit 0 is set, so a
record for inode 1 should be stored and bit 6 is clear so no record for
inode 7 should exist; but Group construction stores exactly a record for
inode 7 and none for inode 1 — the source indexes the bitmap at N itself
with `BitArray`'s most-significant-bit-first numbering. -/
theorem c4_counterexample :
    (parse imgC4).map (fun v => v.table.map Prod.fst) = .ok [7]
    ∧ specLittleEndianBit (readBytes imgC4 1024 1024) 0 = true
    ∧ specLittleEndianBit (readBytes imgC4 1024 1024) 6 = false := by
  exact ⟨by decide, by decide, by decide⟩

set_option maxRecDepth 100000 in
/-- Witness for C4's amended claim with the one-block geometry `sbW4`:
inode 1 is stored exactly per the source's bit test. -/
theorem c4_amended_witness :
    1 ∈ ([(1, zeroIno)] : Table).map Prod.fst ↔
      ((∃ i < sbW4.inode_table_size, ∃ j < sbW4.inodes_per_block,
          1 = i * sbW4.inodes_per_block + j + 1) ∧ bitArrayGet [64] 1 = some true) :=
  c4_amended imgW4 sbW4 [64] 0 [(1, zeroIno)] 1 (by decide)

/-- The entry walk never raises the superblock's group-count failure. -/
theorem walkEntries_ne_usv (img : Bytes) : ∀ (fuel off : Nat) (fs : Files),
    walkEntries img fuel off fs ≠ .error .unsupportedVolume := by
  intro fuel
  induction fuel with
  | zero =>
    intro off fs h
    rw [walkEntries_zero] at h
    injection h with h2
    exact PyErr.noConfusion h2
  | succ n ih =>
    intro off fs h
    rw [walkEntries_succ] at h
    split at h
    · split at h
      · exact Except.noConfusion h
      · split at h
        · injection h with h2
          exact PyErr.noConfusion h2
        · split at h
          · exact ih _ _ h
          · injection h with h2
            exact PyErr.noConfusion h2
    · injection h with h2
      exact PyErr.noConfusion h2

/-- The block-pointer loop never raises the group-count failure. -/
theorem dirBlocksLoop_ne_usv (img : Bytes) (bs : Nat) : ∀ (bl : List Nat) (fs : Files),
    dirBlocksLoop img bs bl fs ≠ .error .unsupportedVolume := by
  intro bl
  induction bl with
  | nil =>
    intro fs h
    exact Except.noConfusion h
  | cons b rest ih =>
    intro fs h
    rw [dirBlocksLoop] at h
    split at h
    · exact ih _ h
    · rcases hw : walkEntries img walkFuel (b * bs) fs with e | fs2
      · simp only [hw] at h
        injection h with h2
        rw [h2] at hw
        exact walkEntries_ne_usv img _ _ _ hw
      · simp only [hw] at h
        exact ih _ h

/-- Directory parsing never raises the group-count failure. -/
theorem parseDirs_ne_usv (img : Bytes) (bs : Nat) (ino : Inode) :
    parseDirs img bs ino ≠ .error .unsupportedVolume := by
  intro h
  rw [parseDirs] at h
  rcases hd : dirBlocksLoop img bs ino.block ino.files with e | fs
  · simp only [hd] at h
    injection h with h2
    rw [h2] at hd
    exact dirBlocksLoop_ne_usv img bs _ _ hd
  · simp only [hd] at h
    exact Except.noConfusion h

/-- Record decoding never raises the group-count failure. -/
theorem decodeInode_ne_usv (data : Bytes) :
    decodeInode data ≠ .error .unsupportedVolume := by
  intro h
  unfold decodeInode at h
  split at h
  · exact Except.noConfusion h
  · injection h with h2
    exact PyErr.noConfusion h2

/-- A slot step never raises the group-count failure. -/
theorem processSlot_ne_usv (img : Bytes) (sb : SuperBlock) (bm : Bytes) (off : Nat)
    (t : Table) (i j : Nat) :
    processSlot img sb bm off t i j ≠ .error .unsupportedVolume := by
  intro h
  unfold processSlot at h
  rcases hb : bitArrayGet bm (i * sb.inodes_per_block + j + 1) with _ | b
  · simp only [hb] at h
    injection h with h2
    exact PyErr.noConfusion h2
  · cases b
    · simp only [hb] at h
      exact Except.noConfusion h
    · simp only [hb] at h
      rcases hdec : decodeInode
          (readBytes img (off + sb.block_size * i + sb.inode_size * j) sb.inode_size) with e | ino
      · simp only [hdec] at h
        injection h with h2
        rw [h2] at hdec
        exact decodeInode_ne_usv _ hdec
      · simp only [hdec] at h
        rcases hpd : (if ino.is_dir then parseDirs img sb.block_size ino else .ok ino)
            with e | ino2
        · simp only [hpd] at h
          injection h with h2
          rw [h2] at hpd
          by_cases hdir : ino.is_dir
          · rw [if_pos hdir] at hpd
            exact parseDirs_ne_usv img sb.block_size ino hpd
          · rw [if_neg hdir] at hpd
            exact Except.noConfusion hpd
        · simp only [hpd] at h
          exact Except.noConfusion h

/-- The inner slot loop never raises the group-count failure. -/
theorem innerLoop_ne_usv (img : Bytes) (sb : SuperBlock) (bm : Bytes) (off : Nat) (i : Nat) :
    ∀ (js : List Nat) (t : Table),
      innerLoop img sb bm off i js t ≠ .error .unsupportedVolume := by
  intro js
  induction js with
  | nil =>
    intro t h
    exact Except.noConfusion h
  | cons j js ih =>
    intro t h
    rw [innerLoop] at h
    rcases hps : processSlot img sb bm off t i j with e | t1
    · simp only [hps] at h
      injection h with h2
      rw [h2] at hps
      exact processSlot_ne_usv img sb bm off t i j hps
    · simp only [hps] at h
      exact ih _ h

/-- The outer table-block loop never raises the group-count failure. -/
theorem outerLoop_ne_usv (img : Bytes) (sb : SuperBlock) (bm : Bytes) (off : Nat) :
    ∀ (is : List Nat) (t : Table),
      outerLoop img sb bm off is t ≠ .error .unsupportedVolume := by
  intro is
  induction is with
  | nil =>
    intro t h
    exact Except.noConfusion h
  | cons i is ih =>
    intro t h
    rw [outerLoop] at h
    rcases hin : innerLoop img sb bm off i (List.range sb.inodes_per_block) t with e | t1
    · simp only [hin] at h
      injection h with h2
      rw [h2] at hin
      exact innerLoop_ne_usv img sb bm off i _ t hin
    · simp only [hin] at h
      exact ih _ h

/-- The group-descriptor decode never raises the group-count failure. -/
theorem mkBGD_ne_usv (img : Bytes) (bs : Nat) :
    mkBGD img bs ≠ .error .unsupportedVolume := by
  intro h
  simp only [mkBGD] at h
  split at h
  · injection h with h2
    exact PyErr.noConfusion h2
  · exact Except.noConfusion h

/-- `log2fuel` with no fuel. -/
theorem log2fuel_zero (m : Nat) : log2fuel 0 m = 0 := rfl

/-- One halving step of `log2fuel`. -/
theorem log2fuel_succ (f m : Nat) :
    log2fuel (f + 1) m = if 2 ≤ m then log2fuel f (m / 2) + 1 else 0 := rfl

/-- `log2fuel` is exact at powers of two once the fuel covers the exponent. -/
theorem log2fuel_two_pow (f : Nat) : ∀ t : Nat, t ≤ f → log2fuel f (2 ^ t) = t := by
  induction f with
  | zero =>
    intro t ht
    obtain rfl : t = 0 := Nat.le_zero.mp ht
    rfl
  | succ f ih =>
    intro t ht
    cases t with
    | zero =>
      rw [log2fuel_succ]
      norm_num
    | succ s =>
      have h2 : 2 ≤ 2 ^ (s + 1) := by
        calc 2 = 2 ^ 1 := rfl
        _ ≤ 2 ^ (s + 1) := Nat.pow_le_pow_right (by norm_num) (by omega)
      rw [log2fuel_succ, if_pos h2, pow_succ, Nat.mul_div_cancel _ (by norm_num),
        ih s (by omega)]

/-- The bit length of a power of two. -/
theorem bitLen_two_pow (t : Nat) : bitLen (2 ^ t) = t + 1 := by
  have hpos : 0 < (2 : Nat) ^ t := pow_pos (by norm_num) t
  rw [bitLen, if_neg hpos.ne', log2fuel_two_pow _ t (Nat.le_of_lt (Nat.lt_two_pow t))]

/-- Rounding to nearest even coincides with plain division when the divisor
divides the numerator. -/
theorem rneDiv_of_dvd (n m : Nat) (hm : 0 < m) (hd : m ∣ n) : rneDiv n m = n / m := by
  unfold rneDiv
  rw [Nat.mod_eq_zero_of_dvd hd]
  simp [hm]

/-- When the inode record size divides the (power-of-two) block size, the
float detour of `ext2reader.py:142` is exact: the divisor is itself a power
of two, the rounded quotient is the exact power `2^(k-t)`, and truncation
returns the exact integer quotient. -/
theorem pyIntDivPow2_dvd (k m r : Nat) (hdvd : m ∣ 2 ^ k)
    (h : pyIntDivPow2 k m = .ok r) : r = 2 ^ k / m := by
  obtain ⟨t, htk, rfl⟩ := (Nat.dvd_prime_pow Nat.prime_two).mp hdvd
  have hpos : 0 < (2 : Nat) ^ t := pow_pos (by norm_num) t
  rw [pyIntDivPow2, if_neg hpos.ne', bitLen_two_pow] at h
  have hdiv : 2 ^ (t + 1 + 52) / 2 ^ t = 2 ^ 53 := by
    rw [show t + 1 + 52 = 53 + t by omega, pow_add, Nat.mul_div_cancel _ hpos]
  have hrne : rneDiv (2 ^ (t + 1 + 52)) (2 ^ t) = 2 ^ 53 :=
    (rneDiv_of_dvd _ _ hpos (pow_dvd_pow 2 (by omega))).trans hdiv
  rw [hrne] at h
  split at h
  · exact Except.noConfusion h
  · injection h with h2
    rw [← h2]
    have e1 : (2 : Nat) ^ 53 * 2 ^ (k + 1) = 2 ^ (k - t) * 2 ^ (t + 1 + 53) := by
      rw [← pow_add, ← pow_add]
      congr 1
      omega
    have e2 : (2 : Nat) ^ k = 2 ^ (k - t) * 2 ^ t := by
      rw [← pow_add]
      congr 1
      omega
    rw [e1, e2, Nat.mul_div_cancel _ (pow_pos (by norm_num) (t + 1 + 53)),
      Nat.mul_div_cancel _ hpos]

set_option maxRecDepth 8000 in
/-- Counterexample for C8: the superblock of `imgC8cx` has `block_size` =
2^60 (`s_log_block_size` = 50) and `s_inode_size` = 3, and construction
derives `inodes_per_block` = 384307168202282304 — Python truncates the
correctly rounded binary64 of `2^60 / 3` — instead of the claim's
`block_size / inode_record_size` = 384307168202282325; and on `imgC8ov`
(`s_log_block_size` = 1014, `s_inode_size` = 1, a group count that would
be 1) construction fails with `OverflowError` at that division, before the
group-count check the claim ties all failures to. -/
theorem c8_counterexample :
    (mkSuperBlock imgC8cx).map (fun sb => sb.inodes_per_block) = .ok 384307168202282304
    ∧ (1024 <<< 50) / 3 = 384307168202282325
    ∧ (384307168202282304 : Nat) ≠ 384307168202282325
    ∧ mkSuperBlock imgC8ov = .error .overflowError := by
  exact ⟨by decide, by decide, by decide, by decide⟩

/-- C8 as amended: superblock construction derives
`block_size = 1024 << log_block_size` exactly,
`inode_table_blocks_per_group = inodes_per_group / inodes_per_block`
exactly, and `block_group_count = ceil(total_blocks / blocks_per_group)`
exactly (the Nat ceiling division, characterized by its Galois property
below); `inodes_per_block` comes from Python float true division and
equals `block_size / inode_record_size` whenever the inode record size
divides the block size (every real ext2 geometry); and opening the volume
fails with `UnsupportedVolume` — before any Group is constructed — exactly
when the derived block-group count differs from 1, whenever superblock
construction succeeds at all. -/
theorem c8_superblock (img : Bytes) (sb : SuperBlock) (h : mkSuperBlock img = .ok sb) :
    sb.block_size = 1024 <<< sb.log_block_size
    ∧ (sb.inode_size ∣ sb.block_size → sb.inodes_per_block = sb.block_size / sb.inode_size)
    ∧ sb.inode_table_size = sb.inodes_per_group / sb.inodes_per_block
    ∧ sb.nb_block_groups = sb.blocks_count ⌈/⌉ sb.blocks_per_group
    ∧ 0 < sb.blocks_per_group
    ∧ (∀ c : Nat, sb.nb_block_groups ≤ c ↔ sb.blocks_count ≤ sb.blocks_per_group * c)
    ∧ (parse img = .error .unsupportedVolume ↔ sb.nb_block_groups ≠ 1) := by
  have h0 := h
  simp only [mkSuperBlock] at h0
  split at h0
  · exact Except.noConfusion h0
  · split at h0
    · exact Except.noConfusion h0
    · rename_i ipb heq
      split at h0
      · exact Except.noConfusion h0
      · split at h0
        · exact Except.noConfusion h0
        · rename_i hipb hbpg
          injection h0 with h2
          subst h2
          have hbpg2 : 0 < u32le (readBytes img 1024 1024) 32 := Nat.pos_of_ne_zero hbpg
          have hshift : (1024 : Nat) <<< u32le (readBytes img 1024 1024) 24 =
              2 ^ (10 + u32le (readBytes img 1024 1024) 24) := by
            rw [Nat.shiftLeft_eq, show (1024 : Nat) = 2 ^ 10 from rfl, ← pow_add]
          refine ⟨rfl, ?_, rfl, rfl, hbpg2, ?_, ?_⟩
          · intro hdvd
            have hdvd2 : u16le (readBytes img 1024 1024) 88 ∣
                2 ^ (10 + u32le (readBytes img 1024 1024) 24) := by
              rw [← hshift]
              exact hdvd
            show ipb = 1024 <<< u32le (readBytes img 1024 1024) 24 /
              u16le (readBytes img 1024 1024) 88
            rw [hshift]
            exact pyIntDivPow2_dvd _ _ _ hdvd2 heq
          · intro c
            exact ceilDiv_le_iff_le_mul hbpg2
          · constructor
            · intro hp hnb
              simp only [parse, h] at hp
              rw [if_neg (by simpa using hnb)] at hp
              split at hp
              · rename_i e heq2
                injection hp with h3
                rw [h3] at heq2
                exact mkBGD_ne_usv _ _ heq2
              · split at hp
                · injection hp with h3
                  exact PyErr.noConfusion h3
                · split at hp
                  · rename_i e2 heq3
                    injection hp with h3
                    rw [h3] at heq3
                    exact outerLoop_ne_usv _ _ _ _ _ _ heq3
                  · exact Except.noConfusion hp
            · intro hnb
              simp only [parse, h]
              rw [if_pos (by simpa using hnb)]

set_option maxRecDepth 100000 in
/-- Witness for C8's amended claim at `imgC8`, whose superblock decodes
with `nb_block_groups = 2` and a dividing inode size (128 divides 1024):
the group-count iff, the Galois bound of the ceiling division, and the
exact `inodes_per_block`. -/
theorem c8_superblock_witness :
    (parse imgC8 = .error .unsupportedVolume ↔ sbC8.nb_block_groups ≠ 1)
    ∧ (sbC8.nb_block_groups ≤ 2 ↔ sbC8.blocks_count ≤ sbC8.blocks_per_group * 2)
    ∧ sbC8.inodes_per_block = sbC8.block_size / sbC8.inode_size :=
  ⟨(c8_superblock imgC8 sbC8 (by decide)).2.2.2.2.2.2,
   (c8_superblock imgC8 sbC8 (by decide)).2.2.2.2.2.1 2,
   (c8_superblock imgC8 sbC8 (by decide)).2.1 (by decide)⟩

end Pyext2
